import Mathlib

/-!
Verification development for `app_real_time_data.py` (stock_project).

The program wires four assistant agents into a round-robin group chat with a
termination condition `TextMentionTermination("Decision Made") |
MaxMessageTermination(15)`, equips two of them with asynchronous data tools
(a yfinance real-time price tool and two Bing-grounded tools that create a
transient remote agent and thread per call), and drives the whole
conversation in an infinite polling loop with a fixed sleep interval.

The source file itself only *composes* the scheduler and termination
primitives; their operational semantics live in the autogen library, which
is not part of this repository.  Those parts are modelled from the spec
(each such definition says so in its doc comment).  Everything else — the
termination tree, the agent roster and its order, the tool bodies, and the
driver loop — is translated directly from the source.
-/

namespace StockProject

/-- A conversation message: the sending agent's name and its text content. -/
structure Message where
  sender : String
  content : String
deriving DecidableEq

/-- `startsWith pat l` : the character list `pat` begins the character list `l`. -/
def startsWith : List Char → List Char → Bool
  | [], _ => true
  | _ :: _, [] => false
  | p :: ps, c :: cs => p == c && startsWith ps cs

/-- `hasSub pat l` : the character list `pat` occurs contiguously inside `l`. -/
def hasSub : List Char → List Char → Bool
  | pat, [] => pat.isEmpty
  | pat, c :: cs => startsWith pat (c :: cs) || hasSub pat cs

/-- Substring containment on strings (Python's `in` on `str`), used to model
`TextMentionTermination`'s check of message content. -/
def containsSub (s pat : String) : Bool := hasSub pat.toList s.toList

/-- Modelled from the spec: termination conditions form a tree of two
primitive kinds (text-mention and max-message-count) closed under the
boolean combinators OR and AND; the concrete classes
`TextMentionTermination`, `MaxMessageTermination` and their `|` combination
live in the autogen library, not in this repository. -/
inductive TerminationCondition where
  | textMention (phrase : String)
  | maxMessage (bound : Nat)
  | orC (a b : TerminationCondition)
  | andC (a b : TerminationCondition)
deriving DecidableEq

/-- Modelled from the spec: `should_stop(transcript)`.  Text-mention is true
iff some message's content contains the marker phrase; max-message-count is
true iff the transcript length has reached the bound; OR/AND combine
subtree verdicts. -/
def shouldStop : TerminationCondition → List Message → Bool
  | .textMention p, t => t.any fun m => containsSub m.content p
  | .maxMessage n, t => decide (n ≤ t.length)
  | .orC a b, t => shouldStop a t || shouldStop b t
  | .andC a b, t => shouldStop a t && shouldStop b t

/-- The deployed termination condition, from
`termination = TextMentionTermination("Decision Made") | MaxMessageTermination(15)`
(src line 155). -/
def termination : TerminationCondition :=
  .orC (.textMention "Decision Made") (.maxMessage 15)

/-- The fixed agent roster of `investment_team` (src lines 157-165), in
source order. -/
def investment_team : List String :=
  ["stock_trends_agent", "news_agent", "sentiment_agent", "decision_agent"]

/-- Modelled from the spec: one scheduler turn.  The next speaker is the
agent at position `transcript length mod roster length`; `behaviors` is the
(deterministic) model backend, mapping an agent name and the transcript so
far to that agent's reply content.  The round-robin selection itself lives
in the autogen library. -/
def takeTurn (roster : List String) (behaviors : String → List Message → String)
    (t : List Message) : Message :=
  let name := roster.getD (t.length % roster.length) ""
  { sender := name, content := behaviors name t }

/-- Modelled from the spec: the Group Conversation Scheduler loop.  While
running it appends the next agent's message and then evaluates the
termination condition; `fuel` bounds the number of turns observed (the
deployed condition always fires within 15 turns, so fuel only truncates
runs whose condition never fires). -/
def runAux (roster : List String) (behaviors : String → List Message → String)
    (term : TerminationCondition) : List Message → Nat → List Message
  | t, 0 => t
  | t, fuel + 1 =>
    let t' := t ++ [takeTurn roster behaviors t]
    if shouldStop term t' then t' else runAux roster behaviors term t' fuel

/-- Modelled from the spec: a ConversationRun seeds an empty transcript and
runs the scheduler loop to termination. -/
def run (roster : List String) (behaviors : String → List Message → String)
    (term : TerminationCondition) (fuel : Nat) : List Message :=
  runAux roster behaviors term [] fuel

/-- Modelled from the spec: the Real-Time Driver keeps no state across
cycles beyond the fixed roster, behaviors and termination tree; each cycle
appends the transcript of a fresh ConversationRun (seeded from the empty
transcript, never from an earlier cycle's transcript). -/
def driverTranscripts (roster : List String)
    (behaviors : String → List Message → String) (term : TerminationCondition)
    (fuel : Nat) : Nat → List (List Message)
  | 0 => []
  | k + 1 =>
    driverTranscripts roster behaviors term fuel k
      ++ [runAux roster behaviors term [] fuel]

/-- One observable event of the driver loop `run_realtime_analysis`. -/
inductive DriverEvent where
  | runCompleted (transcript : List Message)
  | slept (seconds : Nat)
  | runRaised (err : String)
deriving DecidableEq

/-- The driver loop of `run_realtime_analysis` (src lines 171-182):
`while True:` await one team run, then `await asyncio.sleep(interval)`.
The outcome of cycle `k`'s team run is abstracted as `outcomes k`
(`.error` when the awaited run raises, e.g. on a backend outage).  The
source has no exception handler, so a raising run propagates out of the
loop: the result's second component is the propagated exception, `none`
while the loop is still running.  `fuel` bounds how many iterations of the
infinite loop are observed. -/
def run_realtime_analysis (outcomes : Nat → Except String (List Message))
    (interval : Nat) : Nat → Nat → List DriverEvent × Option String
  | _, 0 => ([], none)
  | k, fuel + 1 =>
    match outcomes k with
    | .error e => ([.runRaised e], some e)
    | .ok tr =>
      let rest := run_realtime_analysis outcomes interval (k + 1) fuel
      (.runCompleted tr :: .slept interval :: rest.1, rest.2)

/-- The default polling interval of `run_realtime_analysis` (src line 171:
`interval: int = 60`); `main` (src line 186) also passes 60 explicitly. -/
def defaultInterval : Nat := 60

/-- The fixed subject from `main` (src line 185). -/
def main_stock_name : String := "ICICIBANK.NS"

/-! ### Data tools -/

/-- One row of the yfinance price history `ticker.history(period="1d",
interval="1m")`: its index timestamp (already rendered as
`"%Y-%m-%d %H:%M:%S"`) and its `Close` price.  The float close price is
modelled as a rational. -/
structure PriceRow where
  timestamp : String
  close : Rat
deriving DecidableEq

/-- The close price rounded to hundredths: `⌊q * 100 + 1/2⌋`, computed
directly on the rational's numerator and denominator. -/
def round2 (q : Rat) : Int := (200 * q.num + q.den).fdiv (2 * q.den)

/-- Python's `f"{x:.2f}"` rendering, modelled on rationals: round to
hundredths and print with exactly two decimal digits. -/
def format2 (q : Rat) : String :=
  let n : Int := round2 q
  let a : Nat := n.natAbs
  let frac : Nat := a % 100
  (if n < 0 then "-" else "")
    ++ toString (a / 100) ++ "."
    ++ (if frac < 10 then "0" else "") ++ toString frac

/-- `realtime_stock_price_tool` (src lines 76-85): if the fetched one-day
minute-interval history is empty, return the sentinel string; otherwise
format the last row's close price and timestamp.  The fetched history is
the `data` argument; `data.getLast?` models `iloc[-1]` / `index[-1]` with
the `data.empty` guard. -/
def realtime_stock_price_tool (stock_name : String) (data : List PriceRow) :
    String :=
  match data.getLast? with
  | none => "Could not fetch real-time price for " ++ stock_name ++ "."
  | some row =>
    "As of " ++ row.timestamp ++ ", the real-time price of " ++ stock_name
      ++ " is ₹" ++ format2 row.close ++ "."

/-- One message object returned by the remote `list_messages` call: the
`text.value` of each of its content blocks. -/
structure RemoteMessage where
  contentTexts : List String
deriving DecidableEq

/-- The `messages` object returned by `list_messages`: its `"data"` list,
newest first. -/
structure RemoteResponse where
  data : List RemoteMessage
deriving DecidableEq

/-- Python list indexing `l[i]`: raises `IndexError` when out of range. -/
def listGetE (l : List α) (i : Nat) : Except String α :=
  match l.get? i with
  | some a => .ok a
  | none => .error "IndexError"

/-- A remote resource operation issued by a Bing-grounded tool, in the
order the source issues them. -/
inductive RemoteOp where
  | createAgent (name instructions : String)
  | createThread
  | createMessage (content : String)
  | processRun
  | listMessages
  | deleteAgent
  | deleteThread
deriving DecidableEq

/-- `stock_price_trends_tool` (src lines 51-73): creates a transient remote
agent and thread, posts a message, processes the run, lists the thread's
messages, deletes the agent (never the thread), and returns
`messages["data"][0]["content"][0]["text"]["value"]` — unguarded indexing,
modelled as `Except` (`.error "IndexError"` is the raised exception).  The
first component is the trace of remote operations in source order; the
remote response is the `response` argument. -/
def stock_price_trends_tool (stock_name : String) (response : RemoteResponse) :
    List RemoteOp × Except String String :=
  ([.createAgent "stock_trends_agent_tool"
      ("Summarize recent price movements and trends for " ++ stock_name ++ "."),
    .createThread,
    .createMessage ("Get stock price trends for " ++ stock_name ++ "."),
    .processRun, .listMessages, .deleteAgent],
   do
     let m ← listGetE response.data 0
     let t ← listGetE m.contentTexts 0
     pure t)

/-- `news_analysis_tool` (src lines 88-108): same structure as
`stock_price_trends_tool` with the news agent's name and texts. -/
def news_analysis_tool (stock_name : String) (response : RemoteResponse) :
    List RemoteOp × Except String String :=
  ([.createAgent "news_analysis_tool_agent"
      ("Summarize the latest financial news for " ++ stock_name ++ "."),
    .createThread,
    .createMessage ("Find the latest stock news about " ++ stock_name ++ "."),
    .processRun, .listMessages, .deleteAgent],
   do
     let m ← listGetE response.data 0
     let t ← listGetE m.contentTexts 0
     pure t)

/-- The first character of a string, used to separate the tool's two
output shapes. -/
def firstChar (s : String) : Option Char := s.data.head?

/-- A backend outage on the first observed cycle, every later cycle fine:
the simulated outage scenario. -/
def outageOutcomes : Nat → Except String (List Message) :=
  fun k => if k = 0 then .error "backend unavailable" else .ok []

/-- A remote response whose newest message carries one text block: the
successful path of a Bing-grounded tool call. -/
def sampleResponse : RemoteResponse := ⟨[⟨["Trend summary text"]⟩]⟩

/-! ### Helper lemmas -/

/-- The sender of every already-produced message at index `k` is the roster
entry at `k mod N`. -/
def senderInv (roster : List String) (t : List Message) : Prop :=
  ∀ k m, t.get? k = some m → m.sender = roster.getD (k % roster.length) ""

lemma senderInv_nil (roster : List String) : senderInv roster [] := by
  intro k m hk
  simp at hk

lemma senderInv_snoc (roster : List String)
    (behaviors : String → List Message → String) (t : List Message)
    (hInv : senderInv roster t) :
    senderInv roster (t ++ [takeTurn roster behaviors t]) := by
  intro k m hk
  rcases Nat.lt_or_ge k t.length with hlt | hge
  · rw [List.get?_append hlt] at hk
    exact hInv k m hk
  · rw [List.get?_append_right hge] at hk
    rcases Nat.lt_or_ge (k - t.length) 1 with h1 | h1
    · have hk0 : k - t.length = 0 := by omega
      rw [hk0] at hk
      simp at hk
      have hkeq : k = t.length := by
        rcases Nat.lt_or_ge k (t.length + 1) with h2 | h2
        · omega
        · exfalso
          have : ([takeTurn roster behaviors t] : List Message).get? (k - t.length) = none := by
            apply List.get?_eq_none.mpr
            simp
            omega
          rw [hk0] at this
          simp at this
      subst hkeq
      rw [← hk]
      rfl
    · have : ([takeTurn roster behaviors t] : List Message).get? (k - t.length) = none := by
        apply List.get?_eq_none.mpr
        simp
        omega
      rw [this] at hk
      exact absurd hk (by simp)

lemma senderInv_runAux (roster : List String)
    (behaviors : String → List Message → String) (term : TerminationCondition) :
    ∀ (fuel : Nat) (t : List Message), senderInv roster t →
      senderInv roster (runAux roster behaviors term t fuel) := by
  intro fuel
  induction fuel with
  | zero => intro t h; exact h
  | succ n ih =>
    intro t h
    rw [runAux]
    by_cases hs : shouldStop term (t ++ [takeTurn roster behaviors t]) = true
    · simp only [hs, if_true]
      exact senderInv_snoc roster behaviors t h
    · simp only [Bool.not_eq_true] at hs
      simp only [hs, Bool.false_eq_true, if_false]
      exact ih _ (senderInv_snoc roster behaviors t h)

/-- Every message of the transcript so far was produced by `behaviors`, so
none of them contains the marker phrase. -/
def phraseFree (phrase : String) (t : List Message) : Prop :=
  ∀ m ∈ t, containsSub m.content phrase = false

lemma phraseFree_nil (phrase : String) : phraseFree phrase [] := by
  intro m hm
  simp at hm

lemma phraseFree_snoc (phrase : String) (t : List Message) (m : Message)
    (ht : phraseFree phrase t) (hm : containsSub m.content phrase = false) :
    phraseFree phrase (t ++ [m]) := by
  intro x hx
  rcases List.mem_append.mp hx with h | h
  · exact ht x h
  · simp at h
    subst h
    exact hm

/-- On a marker-free transcript the deployed condition reduces to the
message cap. -/
lemma shouldStop_termination_of_phraseFree (t : List Message)
    (ht : phraseFree "Decision Made" t) :
    shouldStop termination t = decide (15 ≤ t.length) := by
  have hany : (t.any fun m => containsSub m.content "Decision Made") = false := by
    rw [List.any_eq_false]
    intro m hm
    simp [ht m hm]
  simp [termination, shouldStop, hany]

lemma runAux_phraseFree (roster : List String)
    (behaviors : String → List Message → String) (term : TerminationCondition)
    (hb : ∀ name t, containsSub (behaviors name t) "Decision Made" = false) :
    ∀ (fuel : Nat) (t : List Message), phraseFree "Decision Made" t →
      phraseFree "Decision Made" (runAux roster behaviors term t fuel) := by
  intro fuel
  induction fuel with
  | zero => intro t h; exact h
  | succ n ih =>
    intro t h
    have h' : phraseFree "Decision Made" (t ++ [takeTurn roster behaviors t]) :=
      phraseFree_snoc _ t _ h (hb _ t)
    rw [runAux]
    by_cases hs : shouldStop term (t ++ [takeTurn roster behaviors t]) = true
    · simp only [hs, if_true]
      exact h'
    · simp only [Bool.not_eq_true] at hs
      simp only [hs, Bool.false_eq_true, if_false]
      exact ih _ h'

/-- With the deployed termination tree and marker-free replies, the run
grows one message per turn and caps at 15. -/
lemma runAux_length_termination (roster : List String)
    (behaviors : String → List Message → String)
    (hb : ∀ name t, containsSub (behaviors name t) "Decision Made" = false) :
    ∀ (fuel : Nat) (t : List Message), phraseFree "Decision Made" t →
      t.length < 15 →
      (runAux roster behaviors termination t fuel).length
        = min (t.length + fuel) 15 := by
  intro fuel
  induction fuel with
  | zero =>
    intro t _ hlen
    rw [runAux]
    omega
  | succ n ih =>
    intro t ht hlen
    have ht' : phraseFree "Decision Made" (t ++ [takeTurn roster behaviors t]) :=
      phraseFree_snoc _ t _ ht (hb _ t)
    have hlen' : (t ++ [takeTurn roster behaviors t]).length = t.length + 1 := by
      simp
    rw [runAux]
    rw [shouldStop_termination_of_phraseFree _ ht', hlen']
    by_cases hcap : 15 ≤ t.length + 1
    · rw [if_pos (by simpa using hcap)]
      rw [hlen']
      omega
    · rw [if_neg (by simpa using hcap)]
      rw [ih _ ht' (by omega), hlen']
      omega

/-- Shape of the driver trace while every observed cycle's run succeeds. -/
lemma run_realtime_analysis_ok (outcomes : Nat → Except String (List Message))
    (ts : Nat → List Message) (interval : Nat)
    (h : ∀ n, outcomes n = .ok (ts n)) :
    ∀ (fuel k : Nat),
      (run_realtime_analysis outcomes interval k fuel).2 = none ∧
      (run_realtime_analysis outcomes interval k fuel).1.length = 2 * fuel ∧
      ∀ i, i < fuel →
        (run_realtime_analysis outcomes interval k fuel).1.get? (2 * i)
          = some (.runCompleted (ts (k + i))) ∧
        (run_realtime_analysis outcomes interval k fuel).1.get? (2 * i + 1)
          = some (.slept interval) := by
  intro fuel
  induction fuel with
  | zero =>
    intro k
    exact ⟨rfl, rfl, fun i hi => absurd hi (by omega)⟩
  | succ n ih =>
    intro k
    obtain ⟨h1, h2, h3⟩ := ih (k + 1)
    have hk := h k
    simp only [run_realtime_analysis, hk]
    refine ⟨h1, ?_, ?_⟩
    · simp only [List.length_cons, h2]
      omega
    · intro i hi
      cases i with
      | zero =>
        constructor
        · simp
        · simp
      | succ j =>
        have e1 : 2 * (j + 1) = 2 * j + 1 + 1 := by ring
        rw [e1]
        simp only [List.get?_cons_succ]
        have e3 : k + (j + 1) = k + 1 + j := by omega
        rw [e3]
        exact h3 j (by omega)

lemma driverTranscripts_length (roster : List String)
    (behaviors : String → List Message → String) (term : TerminationCondition)
    (fuel : Nat) :
    ∀ k, (driverTranscripts roster behaviors term fuel k).length = k := by
  intro k
  induction k with
  | zero => rfl
  | succ n ih =>
    rw [driverTranscripts]
    simp [ih]

/-- Every cycle of the driver carries the transcript of a fresh run seeded
from the empty transcript. -/
lemma driverTranscripts_get? (roster : List String)
    (behaviors : String → List Message → String) (term : TerminationCondition)
    (fuel : Nat) :
    ∀ (k i : Nat), i < k →
      (driverTranscripts roster behaviors term fuel k).get? i
        = some (run roster behaviors term fuel) := by
  intro k
  induction k with
  | zero => intro i hi; omega
  | succ n ih =>
    intro i hi
    rw [driverTranscripts]
    have hlen := driverTranscripts_length roster behaviors term fuel n
    rcases Nat.lt_or_ge i n with h | h
    · rw [List.get?_append (by omega)]
      exact ih i h
    · have hieq : i = n := by omega
      subst hieq
      have hge : (driverTranscripts roster behaviors term fuel i).length ≤ i := by
        rw [hlen]
      rw [List.get?_append_right hge, hlen, Nat.sub_self]
      rfl

/-! ### Claims -/

/-- C1: the conversation's termination condition is the logical OR of the
text-mention check for "Decision Made" and a message cap of 15; with the
4-agent roster, if no agent ever emits "Decision Made", the run's
transcript has exactly 15 messages, the condition fires there, and it
fires at no shorter marker-free transcript. -/
theorem termination_fires_at_fifteenth_message
    (behaviors : String → List Message → String) (fuel : Nat)
    (hb : ∀ name t, containsSub (behaviors name t) "Decision Made" = false)
    (hfuel : 15 ≤ fuel) :
    (∀ t, shouldStop termination t
        = (shouldStop (.textMention "Decision Made") t
            || shouldStop (.maxMessage 15) t)) ∧
    (run investment_team behaviors termination fuel).length = 15 ∧
    shouldStop termination (run investment_team behaviors termination fuel)
      = true ∧
    ∀ t, phraseFree "Decision Made" t → t.length < 15 →
      shouldStop termination t = false := by
  have hlen : (run investment_team behaviors termination fuel).length
      = min (0 + fuel) 15 := by
    rw [run]
    exact runAux_length_termination investment_team behaviors hb fuel []
      (phraseFree_nil _) (by decide)
  refine ⟨fun t => rfl, ?_, ?_, ?_⟩
  · rw [hlen]
    omega
  · have hpf : phraseFree "Decision Made"
        (run investment_team behaviors termination fuel) :=
      runAux_phraseFree investment_team behaviors termination hb fuel []
        (phraseFree_nil _)
    rw [shouldStop_termination_of_phraseFree _ hpf, hlen]
    simp
    omega
  · intro t hpf hlt
    rw [shouldStop_termination_of_phraseFree _ hpf]
    simp
    omega

/-- Witness for C1: with a backend that always replies "no verdict yet",
the run stops with exactly 15 messages. -/
theorem termination_fires_at_fifteenth_message_witness :
    (run investment_team (fun _ _ => "no verdict yet") termination 20).length
      = 15 := by
  have hb : ∀ (name : String) (t : List Message),
      containsSub ((fun _ _ => "no verdict yet") name t) "Decision Made"
        = false := by
    intro name t
    show containsSub "no verdict yet" "Decision Made" = false
    decide
  exact (termination_fires_at_fifteenth_message (fun _ _ => "no verdict yet")
    20 hb (by decide)).2.1

/-- C2: turn k (0-indexed) of a ConversationRun is taken by the agent at
roster position k mod N, for every run length, roster and termination
tree; no agent is skipped or reordered. -/
theorem round_robin_turn_mod (roster : List String)
    (behaviors : String → List Message → String) (term : TerminationCondition)
    (fuel k : Nat) (m : Message)
    (h : (run roster behaviors term fuel).get? k = some m) :
    m.sender = roster.getD (k % roster.length) "" :=
  senderInv_runAux roster behaviors term fuel [] (senderInv_nil roster) k m h

/-- Witness for C2: in a 6-turn run of the deployed 4-agent roster, turn 5
is taken by the roster entry at 5 mod 4, the news agent. -/
theorem round_robin_turn_mod_witness :
    (Message.mk "news_agent" "hi").sender
      = investment_team.getD (5 % investment_team.length) "" :=
  round_robin_turn_mod investment_team (fun _ _ => "hi") termination 6 5
    (Message.mk "news_agent" "hi") (by decide)

/-- C3: for every termination tree built from text-mention and
max-message-count primitives, should_stop is monotonic under appending
messages to the transcript. -/
theorem shouldStop_monotone (term : TerminationCondition) (t ext : List Message)
    (h : shouldStop term t = true) : shouldStop term (t ++ ext) = true := by
  induction term with
  | textMention p =>
    simp only [shouldStop, List.any_append, Bool.or_eq_true] at h ⊢
    exact Or.inl h
  | maxMessage n =>
    simp only [shouldStop, List.length_append, decide_eq_true_eq] at h ⊢
    omega
  | orC a b iha ihb =>
    simp only [shouldStop, Bool.or_eq_true] at h ⊢
    rcases h with h | h
    · exact Or.inl (iha h)
    · exact Or.inr (ihb h)
  | andC a b iha ihb =>
    simp only [shouldStop, Bool.and_eq_true] at h ⊢
    exact ⟨iha h.1, ihb h.2⟩

/-- Witness for C3: the deployed tree, already firing on a 15-message
transcript, still fires after one more message is appended. -/
theorem shouldStop_monotone_witness :
    shouldStop termination
      (List.replicate 15 (Message.mk "sentiment_agent" "neutral")
        ++ [Message.mk "decision_agent" "more"]) = true :=
  shouldStop_monotone termination
    (List.replicate 15 (Message.mk "sentiment_agent" "neutral"))
    [Message.mk "decision_agent" "more"] (by decide)

/-- C4 counterexample: invoked on a subject with no available data (empty
remote message list), the Bing-grounded trend and news adapters do not
return a sentinel string: the unguarded `messages["data"][0]` indexing
raises, modelled as `.error "IndexError"`. -/
theorem trends_tool_raises_on_empty_data :
    (stock_price_trends_tool "ICICIBANK.NS" ⟨[]⟩).2
      = Except.error "IndexError" ∧
    (news_analysis_tool "ICICIBANK.NS" ⟨[]⟩).2 = Except.error "IndexError" :=
  ⟨rfl, rfl⟩

/-- C4 amended: only the real-time price adapter absorbs the no-data case
into a sentinel string; the two Bing-grounded adapters raise (IndexError)
when the remote response holds no message data. -/
theorem adapters_no_data_behavior (s : String) :
    realtime_stock_price_tool s []
      = "Could not fetch real-time price for " ++ s ++ "." ∧
    (stock_price_trends_tool s ⟨[]⟩).2 = Except.error "IndexError" ∧
    (news_analysis_tool s ⟨[]⟩).2 = Except.error "IndexError" :=
  ⟨rfl, rfl, rfl⟩

/-- C5 counterexample: with a simulated backend outage in the first
observed cycle, the driver loop propagates the exception (second
component `some e`) and performs no further cycle — its whole event trace
is the single raise, with no completed run and no sleep after it, so the
Driver neither survives the failure nor starts a fresh run. -/
theorem driver_crashes_on_backend_outage :
    (run_realtime_analysis outageOutcomes 60 0 5).2
      = some "backend unavailable" ∧
    (run_realtime_analysis outageOutcomes 60 0 5).1
      = [.runRaised "backend unavailable"] :=
  ⟨rfl, rfl⟩

/-- C5 amended: the driver loop has no exception handler, so a failing
run's error propagates out of `run_realtime_analysis`, terminating the
loop: no later cycle is started. -/
theorem driver_propagates_run_failure
    (outcomes : Nat → Except String (List Message)) (interval k fuel : Nat)
    (e : String) (h : outcomes k = .error e) (hf : 0 < fuel) :
    (run_realtime_analysis outcomes interval k fuel).2 = some e ∧
    (run_realtime_analysis outcomes interval k fuel).1 = [.runRaised e] := by
  cases fuel with
  | zero => omega
  | succ n => simp [run_realtime_analysis, h]

/-- Witness for the amended C5, at the simulated outage. -/
theorem driver_propagates_run_failure_witness :
    (run_realtime_analysis outageOutcomes 7 0 3).2
      = some "backend unavailable" ∧
    (run_realtime_analysis outageOutcomes 7 0 3).1
      = [.runRaised "backend unavailable"] :=
  driver_propagates_run_failure outageOutcomes 7 0 3 "backend unavailable"
    rfl (by decide)

/-- C6: every polling cycle's ConversationRun is independent of all
previous cycles — each cycle's transcript is that of a fresh run seeded
from the empty transcript, a function of only the fixed roster, behaviors
and termination tree. -/
theorem cycles_independent_of_history (roster : List String)
    (behaviors : String → List Message → String) (term : TerminationCondition)
    (fuel k i : Nat) (hi : i < k) :
    (driverTranscripts roster behaviors term fuel k).get? i
      = some (run roster behaviors term fuel) :=
  driverTranscripts_get? roster behaviors term fuel k i hi

/-- Witness for C6: the second of three cycles equals the fresh run. -/
theorem cycles_independent_of_history_witness :
    (driverTranscripts investment_team (fun _ _ => "m") termination 3 3).get? 1
      = some (run investment_team (fun _ _ => "m") termination 3) :=
  cycles_independent_of_history investment_team (fun _ _ => "m") termination
    3 3 1 (by decide)

/-- C7 counterexample: even on the fully successful path, the trend tool's
remote-operation trace creates a thread and never deletes it — a dangling
remote thread remains after the call returns its extracted text. -/
theorem trends_tool_dangling_thread :
    RemoteOp.createThread
        ∈ (stock_price_trends_tool "ICICIBANK.NS" sampleResponse).1 ∧
    RemoteOp.deleteThread
        ∉ (stock_price_trends_tool "ICICIBANK.NS" sampleResponse).1 ∧
    (stock_price_trends_tool "ICICIBANK.NS" sampleResponse).2
      = Except.ok "Trend summary text" := by
  refine ⟨?_, ?_, rfl⟩ <;> decide

/-- C7 amended: each Bing-grounded tool deletes its transient remote agent
before returning, but the thread it creates is never deleted on any path. -/
theorem bing_tools_release_agent_never_thread (s : String)
    (r : RemoteResponse) :
    (RemoteOp.deleteAgent ∈ (stock_price_trends_tool s r).1 ∧
      RemoteOp.createThread ∈ (stock_price_trends_tool s r).1 ∧
      RemoteOp.deleteThread ∉ (stock_price_trends_tool s r).1) ∧
    (RemoteOp.deleteAgent ∈ (news_analysis_tool s r).1 ∧
      RemoteOp.createThread ∈ (news_analysis_tool s r).1 ∧
      RemoteOp.deleteThread ∉ (news_analysis_tool s r).1) := by
  refine ⟨⟨?_, ?_, ?_⟩, ?_, ?_, ?_⟩ <;>
    simp [stock_price_trends_tool, news_analysis_tool]

/-- C8: two independent ConversationRuns over the same subject and the
same deterministic behaviors produce identical transcripts, whichever
cycles of the driver they are. -/
theorem independent_runs_identical (roster : List String)
    (behaviors : String → List Message → String) (term : TerminationCondition)
    (fuel k i j : Nat) (hi : i < k) (hj : j < k) :
    (driverTranscripts roster behaviors term fuel k).get? i
      = (driverTranscripts roster behaviors term fuel k).get? j := by
  rw [driverTranscripts_get? roster behaviors term fuel k i hi,
    driverTranscripts_get? roster behaviors term fuel k j hj]

/-- Witness for C8: cycles 0 and 2 of three carry the same transcript. -/
theorem independent_runs_identical_witness :
    (driverTranscripts investment_team (fun _ _ => "m") termination 3 3).get? 0
      = (driverTranscripts investment_team (fun _ _ => "m") termination 3
          3).get? 2 :=
  independent_runs_identical investment_team (fun _ _ => "m") termination
    3 3 0 2 (by decide) (by decide)

/-- C9: while runs succeed the driver loop never stops on its own — for
every observation depth the loop is still running (no propagated result),
and each iteration is one completed run followed by one sleep of the
fixed interval; the default interval is 60 seconds. -/
theorem driver_loop_runs_forever (outcomes : Nat → Except String (List Message))
    (ts : Nat → List Message) (interval fuel k : Nat)
    (h : ∀ n, outcomes n = .ok (ts n)) :
    (run_realtime_analysis outcomes interval k fuel).2 = none ∧
    (run_realtime_analysis outcomes interval k fuel).1.length = 2 * fuel ∧
    (∀ i, i < fuel →
      (run_realtime_analysis outcomes interval k fuel).1.get? (2 * i)
        = some (.runCompleted (ts (k + i))) ∧
      (run_realtime_analysis outcomes interval k fuel).1.get? (2 * i + 1)
        = some (.slept interval)) ∧
    defaultInterval = 60 := by
  obtain ⟨h1, h2, h3⟩ := run_realtime_analysis_ok outcomes ts interval h fuel k
  exact ⟨h1, h2, h3, rfl⟩

/-- Witness for C9 at an all-successful backend observed for 3 cycles. -/
theorem driver_loop_runs_forever_witness :
    (run_realtime_analysis (fun _ => .ok []) 60 0 3).2 = none :=
  (driver_loop_runs_forever (fun _ => .ok []) (fun _ => []) 60 3 0
    (fun _ => rfl)).1

/-- C10: the real-time price tool returns the sentinel exactly when the
fetched history is empty; otherwise it returns the formatted message
carrying the last row's close price (two decimals) and timestamp; the
returned string is never empty. -/
theorem realtime_price_tool_spec (s : String) (data : List PriceRow) :
    (data = [] →
      realtime_stock_price_tool s data
        = "Could not fetch real-time price for " ++ s ++ ".") ∧
    (∀ rest row, data = rest ++ [row] →
      realtime_stock_price_tool s data
        = "As of " ++ row.timestamp ++ ", the real-time price of " ++ s
            ++ " is ₹" ++ format2 row.close ++ ".") ∧
    (data ≠ [] →
      realtime_stock_price_tool s data
        ≠ "Could not fetch real-time price for " ++ s ++ ".") ∧
    realtime_stock_price_tool s data ≠ "" := by
  have hsent : data = [] →
      realtime_stock_price_tool s data
        = "Could not fetch real-time price for " ++ s ++ "." := by
    intro h
    subst h
    rfl
  have hfmt : ∀ rest row, data = rest ++ [row] →
      realtime_stock_price_tool s data
        = "As of " ++ row.timestamp ++ ", the real-time price of " ++ s
            ++ " is ₹" ++ format2 row.close ++ "." := by
    intro rest row h
    subst h
    rw [realtime_stock_price_tool, List.getLast?_concat]
  refine ⟨hsent, hfmt, ?_, ?_⟩
  · intro hne
    rcases List.eq_nil_or_concat data with h | ⟨rest, row, h⟩
    · exact absurd h hne
    · rw [List.concat_eq_append] at h
      rw [hfmt rest row h]
      intro heq
      have h1 : firstChar ("As of " ++ row.timestamp
          ++ ", the real-time price of " ++ s ++ " is ₹" ++ format2 row.close
          ++ ".") = some 'A' := rfl
      rw [heq] at h1
      have h2 : firstChar ("Could not fetch real-time price for " ++ s ++ ".")
          = some 'C' := rfl
      rw [h2] at h1
      exact absurd h1 (by decide)
  · rcases List.eq_nil_or_concat data with h | ⟨rest, row, h⟩
    · rw [hsent h]
      intro heq
      have h2 : firstChar ("Could not fetch real-time price for " ++ s ++ ".")
          = some 'C' := rfl
      rw [heq] at h2
      exact absurd h2 (by decide)
    · rw [List.concat_eq_append] at h
      rw [hfmt rest row h]
      intro heq
      have h1 : firstChar ("As of " ++ row.timestamp
          ++ ", the real-time price of " ++ s ++ " is ₹" ++ format2 row.close
          ++ ".") = some 'A' := rfl
      rw [heq] at h1
      exact absurd h1 (by decide)

/-- Witness for C10: empty history yields the sentinel, and a one-row
history yields the formatted price message. -/
theorem realtime_price_tool_spec_witness :
    realtime_stock_price_tool "ICICIBANK.NS" []
      = "Could not fetch real-time price for ICICIBANK.NS." ∧
    realtime_stock_price_tool "ICICIBANK.NS"
        [⟨"2025-10-10 15:29:00", 1432⟩]
      = "As of 2025-10-10 15:29:00, the real-time price of ICICIBANK.NS is ₹1432.00." :=
  ⟨by
    rw [(realtime_price_tool_spec "ICICIBANK.NS" []).1 rfl]
    decide,
   by
    rw [(realtime_price_tool_spec "ICICIBANK.NS"
      [⟨"2025-10-10 15:29:00", 1432⟩]).2.1 [] ⟨"2025-10-10 15:29:00", 1432⟩
      rfl]
    decide⟩

end StockProject
